import Mathlib

/-!
Shallow embedding of the Tiqiaa TView USB IR transceiver driver
(src/tiqiaa/protocol.py, src/tiqiaa/nec.py, src/tiqiaa/device.py),
with theorems checking the specification's claims about it.

Python byte sequences are embedded as `List Nat`; Python integers as `Nat`
(all the quantities involved are non-negative); `bytes`/`bytearray`
elements are in 0..255 but the definitions below are total on all of `Nat`
exactly as the Python operations (`& 0x7F`, `% 128`, slicing) are.
-/

set_option maxRecDepth 10000

namespace Tiqiaa

/-! ### Constants, from src/tiqiaa/protocol.py -/

def PACK_START : Nat := 0x5453

def PACK_END : Nat := 0x4E45

def MAX_FRAG_SIZE : Nat := 56

def CMD_SEND_MODE : Nat := 83

def STATE_SEND : Nat := 9

/-! ### NEC codec, from src/tiqiaa/nec.py -/

def NEC_PULSE_SIZE : Nat := 1125

def IR_TICK_SIZE : Nat := 32

def MAX_BLOCK_SIZE : Nat := 127

/-- The `while ticks > 0` emission loop inside `add_pulse`: emit blocks of at
most `MAX_BLOCK_SIZE` ticks, setting bit 7 on active (IR on) blocks.  The
first `Nat` argument is fuel; the loop consumes at least one tick per
iteration, so fuel equal to the initial tick count suffices. -/
def emitBlocksF (is_high : Bool) : Nat → Nat → List Nat
  | 0, _ => []
  | fuel + 1, ticks =>
    if ticks = 0 then []
    else
      let block := min ticks MAX_BLOCK_SIZE
      (if is_high then block ||| 0x80 else block) :: emitBlocksF is_high fuel (ticks - block)

def emitBlocks (ticks : Nat) (is_high : Bool) : List Nat :=
  emitBlocksF is_high ticks ticks

/-- Encoder state: the running time accumulators (`pulse_time`, `sender_time`)
and the output byte list (`result`) mutated by `add_pulse`. -/
structure EncSt where
  pulse_time : Nat
  sender_time : Nat
  result : List Nat
  deriving DecidableEq

/-- `add_pulse(count, is_high)` from `encode_nec`: advance the pulse clock,
convert the elapsed (unemitted) time to whole device ticks, advance the
emitted-time accumulator by exactly that whole-tick amount, and append the
emitted blocks. -/
def add_pulse (st : EncSt) (count : Nat) (is_high : Bool) : EncSt :=
  let pulse_time := st.pulse_time + count * NEC_PULSE_SIZE
  let ticks := (pulse_time - st.sender_time) / IR_TICK_SIZE
  let sender_time := st.sender_time + ticks * IR_TICK_SIZE
  { pulse_time := pulse_time, sender_time := sender_time,
    result := st.result ++ emitBlocks ticks is_high }

/-- The 32-iteration data-bit loop of `encode_nec`: for each bit (LSB first)
emit 1 unit active then 3 units idle if the bit is 1, else 1 unit idle. -/
def encodeBits : Nat → Nat → EncSt → EncSt
  | 0, _, st => st
  | n + 1, full_code, st =>
    let st1 := add_pulse st 1 true
    let st2 := add_pulse st1 (if full_code &&& 1 ≠ 0 then 3 else 1) false
    encodeBits n (full_code >>> 1) st2

/-- `encode_nec(code)`: leader (16 units on, 8 off), 32 data bits of the frame
`addr | (~addr & 0xFF) << 8 | cmd << 16 | (~cmd & 0xFF) << 24` (for a byte
`b`, `~b & 0xFF = 255 - b`), stop bit, 72-unit trailer. -/
def encode_nec (code : Nat) : List Nat :=
  let addr := (code >>> 8) &&& 0xFF
  let cmd := code &&& 0xFF
  let full_code := addr ||| ((255 - addr) <<< 8) ||| (cmd <<< 16) ||| ((255 - cmd) <<< 24)
  let st0 : EncSt := { pulse_time := 0, sender_time := 0, result := [] }
  let st1 := add_pulse st0 16 true
  let st2 := add_pulse st1 8 false
  let st3 := encodeBits 32 full_code st2
  let st4 := add_pulse st3 1 true
  let st5 := add_pulse st4 72 false
  st5.result

/-- The timing-list construction loop of `decode_nec`: each byte becomes
`(is_high = bit 7, duration = (byte & 0x7F) * IR_TICK_SIZE)`, with
zero-duration entries skipped.  (`byte & 0x7F` is `byte % 128`.) -/
def toTimings : List Nat → List (Bool × Nat)
  | [] => []
  | b :: rest =>
    let ticks := b % 128
    if ticks > 0 then (b.testBit 7, ticks * IR_TICK_SIZE) :: toTimings rest
    else toTimings rest

/-- The leader scan of `decode_nec`: the index of the first entry that is
active with duration greater than 8000 (none when there is no such entry,
matching `leader_idx = -1` in the source). -/
def findLeaderAux : Nat → List (Bool × Nat) → Option Nat
  | _, [] => none
  | i, (is_high, duration) :: rest =>
    if is_high ∧ duration > 8000 then some i else findLeaderAux (i + 1) rest

/-- The 32-iteration bit-extraction loop of `decode_nec`, starting at `idx`:
each bit is a mark `timings[idx]` and a space `timings[idx+1]`; fails if the
indices run out or the mark/space polarity is wrong; a space longer than 2000
decodes to bit 1, else bit 0. -/
def extractBits (timings : List (Bool × Nat)) : Nat → Nat → Option (List Nat)
  | _, 0 => some []
  | idx, n + 1 =>
    if idx + 1 ≥ timings.length then none
    else
      let m := timings.getD idx (false, 0)
      let s := timings.getD (idx + 1) (false, 0)
      if ¬ m.1 ∨ s.1 then none
      else
        let bit : Nat := if s.2 > 2000 then 1 else 0
        match extractBits timings (idx + 2) n with
        | none => none
        | some bits => some (bit :: bits)

/-- LSB-first assembly `full_code |= bit << i` over the extracted bit list. -/
def assembleCode : List Nat → Nat
  | [] => 0
  | b :: rest => b + 2 * assembleCode rest

/-- The final phase of `decode_nec`: extract address / inverted address /
command / inverted command from the 32-bit frame; both the
inversion-check-failure branch and the success branch return
`(addr << 8) | cmd`. -/
def necFinish (full_code : Nat) : Option Nat :=
  let addr := full_code &&& 0xFF
  let addr_inv := (full_code >>> 8) &&& 0xFF
  let cmd := (full_code >>> 16) &&& 0xFF
  let cmd_inv := (full_code >>> 24) &&& 0xFF
  if addr ^^^ addr_inv ≠ 0xFF ∨ cmd ^^^ cmd_inv ≠ 0xFF then
    some ((addr <<< 8) ||| cmd)
  else
    some ((addr <<< 8) ||| cmd)

/-- `decode_nec` after the raw-length check, operating on the timing list:
the `len(timings) < 2` check, the leader scan, the
`leader_idx + 65 >= len(timings)` check, bit extraction from
`leader_idx + 2`, then frame disassembly. -/
def decode_timings (timings : List (Bool × Nat)) : Option Nat :=
  if timings.length < 2 then none
  else
    match findLeaderAux 0 timings with
    | none => none
    | some leader_idx =>
      if leader_idx + 65 ≥ timings.length then none
      else
        match extractBits timings (leader_idx + 2) 32 with
        | none => none
        | some bits => necFinish (assembleCode bits)

/-- `decode_nec(ir_data)` from src/tiqiaa/nec.py. -/
def decode_nec (ir_data : List Nat) : Option Nat :=
  if ir_data.length < 50 then none
  else decode_timings (toTimings ir_data)

/-! ### Identifier generation and outbound framing, from src/tiqiaa/device.py -/

/-- `TiqiaaIR._get_packet_idx`: `self.packet_idx = (self.packet_idx % 15) + 1`. -/
def get_packet_idx (packet_idx : Nat) : Nat := packet_idx % 15 + 1

/-- `TiqiaaIR._get_cmd_id`: `self.cmd_id = (self.cmd_id % 0x7F) + 1`. -/
def get_cmd_id (cmd_id : Nat) : Nat := cmd_id % 0x7F + 1

/-- `bytes.ljust(61, b'\x00')`: pad on the right with zero bytes to length 61
(lists already at least 61 long are returned unchanged). -/
def pad61 (report : List Nat) : List Nat :=
  report ++ List.replicate (61 - report.length) 0

/-- One outbound report built by `_send_report`:
`[0x02, len(chunk) + 3, packet_idx, frag_count, frag_idx] + chunk`,
zero-padded to 61 bytes. -/
def mkReport (packet_idx frag_count frag_idx : Nat) (chunk : List Nat) : List Nat :=
  pad61 ([0x02, chunk.length + 3, packet_idx, frag_count, frag_idx] ++ chunk)

/-- The `while offset < len(data)` fragmentation loop of `_send_report`.
`frag_idx` is the index used by the previous iteration (initially 0; the loop
increments it before building each report).  The first `Nat` argument is
fuel; each iteration consumes at least one byte of `rest`, so fuel equal to
the initial data length suffices. -/
def fragLoopF (packet_idx frag_count : Nat) : Nat → Nat → List Nat → List (List Nat)
  | 0, _, _ => []
  | _ + 1, _, [] => []
  | fuel + 1, frag_idx, b :: rest =>
    mkReport packet_idx frag_count (frag_idx + 1) ((b :: rest).take MAX_FRAG_SIZE) ::
      fragLoopF packet_idx frag_count fuel (frag_idx + 1) ((b :: rest).drop MAX_FRAG_SIZE)

/-- The reports written by `_send_report(data)` once the packet index has been
drawn: `frag_count = (len(data) + MAX_FRAG_SIZE - 1) // MAX_FRAG_SIZE`, then
the fragmentation loop. -/
def send_report_frags (data : List Nat) (packet_idx : Nat) : List (List Nat) :=
  let frag_count := (data.length + MAX_FRAG_SIZE - 1) / MAX_FRAG_SIZE
  fragLoopF packet_idx frag_count data.length 0 data

/-! ### Inbound reassembly (`_process_recv_data`), from src/tiqiaa/device.py -/

/-- The parsed 5-byte fragment header plus payload. -/
structure FragHeader where
  packet_idx : Nat
  frag_count : Nat
  frag_idx : Nat
  payload : List Nat
  deriving DecidableEq

/-- Header validation of `_process_recv_data`: discard reads shorter than 5
bytes, reads whose report id is not `0x01`, and reads whose payload size
(`frag_size - 3`) is `<= 0` or `> 56` (in Python `frag_size - 3` can be
negative; with truncated `Nat` subtraction those cases land in the `= 0`
check, the same discard outcome).  The payload is the slice
`data[5 : 5 + payload_size]`, which like the Python slice may be shorter
than `payload_size` when the read is short. -/
def parseFrag (data : List Nat) : Option FragHeader :=
  if data.length < 5 then none
  else
    let report_id := data.getD 0 0
    let frag_size := data.getD 1 0
    let packet_idx := data.getD 2 0
    let frag_count := data.getD 3 0
    let frag_idx := data.getD 4 0
    if report_id ≠ 0x01 then none
    else
      let payload_size := frag_size - 3
      if payload_size = 0 ∨ payload_size > 56 then none
      else
        some { packet_idx := packet_idx, frag_count := frag_count, frag_idx := frag_idx,
               payload := (data.drop 5).take payload_size }

/-- Per-session reassembly state together with the shared inbox
(`received_packets`) and the waiter notification flag (`packet_event`). -/
structure RecvSt where
  recv_buffer : List Nat
  recv_packet_idx : Nat
  recv_frag_count : Nat
  recv_last_frag : Nat
  received_packets : List (List Nat)
  packet_event : Bool
  deriving DecidableEq

/-- The fragment-handling branch of `_process_recv_data`: `frag_idx == 1`
starts a new packet; otherwise the payload is appended only when the packet
index matches and `frag_idx` is exactly one greater than the last accepted
fragment index; anything else leaves the state unchanged. -/
def fragUpdate (st : RecvSt) (h : FragHeader) : RecvSt :=
  if h.frag_idx = 1 then
    { st with recv_buffer := h.payload, recv_packet_idx := h.packet_idx,
              recv_frag_count := h.frag_count, recv_last_frag := 1 }
  else if h.packet_idx = st.recv_packet_idx ∧ h.frag_idx = st.recv_last_frag + 1 then
    { st with recv_buffer := st.recv_buffer ++ h.payload, recv_last_frag := h.frag_idx }
  else st

/-- The marker validation applied to a completed buffer: length at least 4,
first two bytes the little-endian `PACK_START`, last two bytes the
little-endian `PACK_END`. -/
def markersOk (buf : List Nat) : Prop :=
  4 ≤ buf.length ∧
  buf.getD 0 0 + 256 * buf.getD 1 0 = PACK_START ∧
  buf.getD (buf.length - 2) 0 + 256 * buf.getD (buf.length - 1) 0 = PACK_END

instance markersOkDec (buf : List Nat) : Decidable (markersOk buf) := by
  unfold markersOk
  exact inferInstance

/-- `buffer[2:-2]`: the completed buffer with both 2-byte markers stripped. -/
def stripMarkers (buf : List Nat) : List Nat :=
  (buf.drop 2).take (buf.length - 4)

/-- The completion check at the end of `_process_recv_data`: when the last
received fragment index has reached a positive fragment count, publish the
marker-stripped buffer to the inbox and raise the notification if the
markers validate, then zero the fragment count in either case. -/
def completeCheck (st : RecvSt) : RecvSt :=
  if 0 < st.recv_frag_count ∧ st.recv_last_frag = st.recv_frag_count then
    let st2 :=
      if markersOk st.recv_buffer then
        { st with received_packets := st.received_packets ++ [stripMarkers st.recv_buffer],
                  packet_event := true }
      else st
    { st2 with recv_frag_count := 0 }
  else st

/-- `TiqiaaIR._process_recv_data(data)`: header validation, then fragment
handling, then the completion check (which in the source runs after the
fragment branch regardless of which branch was taken). -/
def process_recv_data (st : RecvSt) (data : List Nat) : RecvSt :=
  match parseFrag data with
  | none => st
  | some h => completeCheck (fragUpdate st h)

/-! ### open(), _send_cmd_wait() and close(), from src/tiqiaa/device.py -/

/-- Outcome of one `self.dev.write` / `_send_report` call as `open()` sees
it: the write succeeded, raised `USBTimeoutError`, or raised `USBError`. -/
inductive WriteOutcome
  | ok
  | timeoutErr
  | usbErr
  deriving DecidableEq

/-- The `for attempt in range(3)` initialization loop of `open()`:
each attempt issues `_send_cmd(CMD_SEND_MODE)` (fire and forget).  A
successful write makes `open` set `device_state = STATE_SEND` and return
`True` at once; an exception moves on to the next attempt; after three
failed attempts `open` returns `False` (no exception escapes). -/
def openSendModeGo (write : Nat → WriteOutcome) (device_state : Nat) :
    Nat → Nat → Bool × Nat
  | _, 0 => (false, device_state)
  | attempt, n + 1 =>
    match write attempt with
    | .ok => (true, STATE_SEND)
    | .timeoutErr => openSendModeGo write device_state (attempt + 1) n
    | .usbErr => openSendModeGo write device_state (attempt + 1) n

/-- The mode-initialization phase of `open()`.  `inbound` is the stream of
logical packets the background reader delivers while `open` runs: `open`
issues `_send_cmd`, not `_send_cmd_wait`, so this stream is never consulted
and only the write outcomes determine the result. -/
def openSendMode (write : Nat → WriteOutcome) (inbound : List (List Nat))
    (device_state : Nat) : Bool × Nat :=
  let _ := inbound
  openSendModeGo write device_state 0 3

/-- The reply-matching scan of `_send_cmd_wait`: the first packet with at
least two bytes whose first byte is the command id and second byte the
command type. -/
def findMatch (cmd_id cmd_type : Nat) : List (List Nat) → Option (List Nat)
  | [] => none
  | pkt :: rest =>
    if 2 ≤ pkt.length ∧ pkt.getD 0 0 = cmd_id ∧ pkt.getD 1 0 = cmd_type then some pkt
    else findMatch cmd_id cmd_type rest

/-- The wait loop of `_send_cmd_wait`: each element of `rounds` is the inbox
contents observed at one wakeup of the loop; the end of the list is the
overall timeout.  On a matching reply the device state is replaced by the
reply's third byte when the reply has one, and the call returns `True`;
with no matching reply in any round it returns `False` with the state
untouched. -/
def send_cmd_wait (cmd_id cmd_type device_state : Nat) :
    List (List (List Nat)) → Bool × Nat
  | [] => (false, device_state)
  | pkts :: rounds =>
    match findMatch cmd_id cmd_type pkts with
    | some pkt => (true, if 3 ≤ pkt.length then pkt.getD 2 0 else device_state)
    | none => send_cmd_wait cmd_id cmd_type device_state rounds

/-- The driver fields touched by `close()`, plus the session inbox and
device state. -/
structure DriverSt where
  dev : Bool
  read_active : Bool
  packet_idx : Nat
  cmd_id : Nat
  device_state : Nat
  received_packets : List (List Nat)
  deriving DecidableEq

/-- `TiqiaaIR.close()` on the path where the best-effort idle command's
write succeeds: stop the reader, send `CMD_IDLE_MODE` (drawing one command
id and one packet index), release the transport.  `received_packets` and
`device_state` are not touched on any path of the source. -/
def close (st : DriverSt) : DriverSt :=
  if st.dev then
    { st with read_active := false, dev := false,
              cmd_id := get_cmd_id st.cmd_id, packet_idx := get_packet_idx st.packet_idx }
  else st

/-! ### Concrete test inputs -/

/-- A timing list with a leader entry, a leader space, and 32 well-formed
zero bits; the resulting frame is all-zero, so both inversion checks fail,
exercising the decoder's best-effort branch. -/
def demoTimings : List (Bool × Nat) :=
  (true, 9000) :: (false, 4500) :: (List.replicate 32 [(true, 1125), (false, 1125)]).flatten

/-! ## Theorems -/

/-! ### Helper lemmas about the NEC decoder -/

theorem findLeaderAux_eq_none (l : List (Bool × Nat)) :
    ∀ i, (∀ t ∈ l, ¬(t.1 = true ∧ 8000 < t.2)) → findLeaderAux i l = none := by
  induction l with
  | nil => intro i _; rfl
  | cons t rest ih =>
    intro i h
    obtain ⟨is_high, duration⟩ := t
    unfold findLeaderAux
    rw [if_neg]
    · exact ih (i + 1) fun u hu => h u (List.mem_cons_of_mem _ hu)
    · have := h (is_high, duration) (List.mem_cons_self _ _)
      simpa using this

theorem toTimings_mem_duration_le (d : List Nat) :
    ∀ t ∈ toTimings d, t.2 ≤ 4064 := by
  induction d with
  | nil => intro t ht; simp [toTimings] at ht
  | cons b rest ih =>
    intro t ht
    simp only [toTimings] at ht
    split at ht
    · rcases List.mem_cons.mp ht with h | h
      · subst h
        have hb : b % 128 ≤ 127 := Nat.le_of_lt_succ (Nat.mod_lt _ (by norm_num))
        calc (b % 128) * IR_TICK_SIZE ≤ 127 * 32 := Nat.mul_le_mul_right _ hb
          _ = 4064 := rfl
      · exact ih t h
    · exact ih t ht

theorem necFinish_eq (full_code : Nat) :
    necFinish full_code =
      some (((full_code &&& 0xFF) <<< 8) ||| ((full_code >>> 16) &&& 0xFF)) := by
  simp only [necFinish]
  split <;> rfl

/-! ### Claim theorems for the NEC codec -/

/-- C10: `decode_nec` returns `none` for every possible input byte sequence:
every timing entry's duration is `(byte & 0x7F) * 32 ≤ 4064`, so no entry can
pass the `duration > 8000` leader test, and the function always takes the
no-leader (or too-short) failure branch. -/
theorem decode_nec_always_none (ir_data : List Nat) : decode_nec ir_data = none := by
  have hnl : findLeaderAux 0 (toTimings ir_data) = none := by
    apply findLeaderAux_eq_none
    intro t ht
    have := toTimings_mem_duration_le ir_data t ht
    rintro ⟨-, hgt⟩
    omega
  unfold decode_nec
  split
  · rfl
  · unfold decode_timings
    split
    · rfl
    · rw [hnl]

/-- C1: the decode-of-encode round trip fails on the code: at the concrete
16-bit code `0x00FF`, `decode_nec (encode_nec 0x00FF)` is `none`, not
`some 0x00FF`, because the decoder's per-entry leader test can never pass on
the encoder's output. -/
theorem nec_roundtrip_fails_at_00FF : decode_nec (encode_nec 0x00FF) = none := by
  decide

/-- C6: `decode_nec` returns `none` whenever the input is shorter than 50
bytes, or the timing list contains no active entry with duration above 8000
(no leader), or a leader is found at an index followed by fewer than 65
further timing entries (`leader_idx + 65 ≥ len(timings)`). -/
theorem decode_nec_failure_conditions (ir_data : List Nat)
    (h : ir_data.length < 50 ∨
         (∀ t ∈ toTimings ir_data, ¬(t.1 = true ∧ 8000 < t.2)) ∨
         (∃ leader_idx, findLeaderAux 0 (toTimings ir_data) = some leader_idx ∧
            (toTimings ir_data).length ≤ leader_idx + 65)) :
    decode_nec ir_data = none := by
  rcases h with h | h | ⟨li, hli, hlen⟩
  · unfold decode_nec
    rw [if_pos h]
  · unfold decode_nec
    split
    · rfl
    · unfold decode_timings
      split
      · rfl
      · rw [findLeaderAux_eq_none _ 0 h]
  · unfold decode_nec
    split
    · rfl
    · unfold decode_timings
      split
      · rfl
      · simp only [hli]
        rw [if_pos hlen]

/-- Witness for C6 at the concrete input `[]` (shorter than 50 bytes). -/
theorem decode_nec_failure_conditions_witness :
    ([] : List Nat).length < 50 ∧ decode_nec [] = none :=
  ⟨by decide, decode_nec_failure_conditions [] (Or.inl (by decide))⟩

/-- C7: once a leader is found and the 32-bit mark/space extraction succeeds,
the decoder returns `some ((addr << 8) | cmd)` built from the assembled frame
— unconditionally, whether or not the inversion checks pass, so
inversion-check failure never produces `none`. -/
theorem decode_timings_best_effort (timings : List (Bool × Nat)) (leader_idx : Nat)
    (bits : List Nat)
    (hleader : findLeaderAux 0 timings = some leader_idx)
    (hlen : leader_idx + 65 < timings.length)
    (hbits : extractBits timings (leader_idx + 2) 32 = some bits) :
    decode_timings timings =
      some (((assembleCode bits &&& 0xFF) <<< 8) ||| ((assembleCode bits >>> 16) &&& 0xFF)) := by
  unfold decode_timings
  rw [if_neg (by omega)]
  simp only [hleader]
  rw [if_neg (by omega)]
  simp only [hbits]
  exact necFinish_eq _

/-- Witness for C7 at `demoTimings`: the leader is at index 0, extraction
yields 32 zero bits, the inversion check `0 xor 0 = 0xFF` fails, and the
decoder still returns `some 0`. -/
theorem decode_timings_best_effort_witness :
    findLeaderAux 0 demoTimings = some 0 ∧
    ¬((0 : Nat) ^^^ 0 = 0xFF) ∧
    decode_timings demoTimings = some 0 :=
  ⟨by decide, by decide, by
    rw [decode_timings_best_effort demoTimings 0 (List.replicate 32 0)
      (by decide) (by decide) (by decide)]
    decide⟩

/-! ### Claim theorems for open(), _send_cmd_wait() and close() -/

theorem openSendModeGo_false (write : Nat → WriteOutcome) (device_state : Nat) :
    ∀ fuel attempt, (∀ i, attempt ≤ i → i < attempt + fuel → write i ≠ .ok) →
      openSendModeGo write device_state attempt fuel = (false, device_state) := by
  intro fuel
  induction fuel with
  | zero => intro attempt _; rfl
  | succ n ih =>
    intro attempt h
    unfold openSendModeGo
    cases hw : write attempt with
    | ok => exact absurd hw (h attempt le_rfl (by omega))
    | timeoutErr => exact ih (attempt + 1) fun i h1 h2 => h i (by omega) (by omega)
    | usbErr => exact ih (attempt + 1) fun i h1 h2 => h i (by omega) (by omega)

/-- C2 counterexample: with every USB write succeeding and an empty inbound
reply stream (no reply ever arrives, so every attempt exceeds any reply
window), `open`'s initialization returns `true`, not `false`: the code sends
`CMD_SEND_MODE` fire-and-forget and never waits for a matching reply. -/
theorem open_counterexample_no_reply_returns_true :
    openSendMode (fun _ => WriteOutcome.ok) [] 0 = (true, STATE_SEND) := rfl

/-- C2 amended: `open()` returns `false` (without raising) exactly when all
three `CMD_SEND_MODE` write attempts raise a USB timeout or USB error; the
attempts never wait for a reply, so the inbound stream is irrelevant. -/
theorem open_false_when_all_writes_fail (write : Nat → WriteOutcome)
    (inbound : List (List Nat)) (device_state : Nat)
    (h : ∀ i, i < 3 → write i ≠ WriteOutcome.ok) :
    openSendMode write inbound device_state = (false, device_state) := by
  show openSendModeGo write device_state 0 3 = (false, device_state)
  exact openSendModeGo_false write device_state 3 0 fun i h1 h2 => h i (by omega)

/-- Witness for C2's amended theorem: all three writes time out, and open's
initialization reports failure with the device state untouched. -/
theorem open_false_when_all_writes_fail_witness :
    (∀ i, i < 3 → (fun _ => WriteOutcome.timeoutErr) i ≠ WriteOutcome.ok) ∧
    openSendMode (fun _ => WriteOutcome.timeoutErr) [] 7 = (false, 7) :=
  ⟨fun _ _ hc => WriteOutcome.noConfusion hc,
   open_false_when_all_writes_fail _ [] 7 fun _ _ hc => WriteOutcome.noConfusion hc⟩

/-- C3 counterexample: `open()` writes `STATE_SEND` into the device-state
field after a successful write even though the inbound stream is empty — no
confirmed command reply exists, yet the state field changes from `0` to
`STATE_SEND = 9`. -/
theorem open_counterexample_state_without_reply :
    (openSendMode (fun _ => WriteOutcome.ok) [] 0).2 = STATE_SEND ∧ STATE_SEND ≠ 0 :=
  ⟨rfl, by decide⟩

theorem findMatch_some (cmd_id cmd_type : Nat) :
    ∀ pkts pkt, findMatch cmd_id cmd_type pkts = some pkt →
      pkt ∈ pkts ∧ 2 ≤ pkt.length ∧ pkt.getD 0 0 = cmd_id ∧ pkt.getD 1 0 = cmd_type := by
  intro pkts
  induction pkts with
  | nil => intro pkt h; cases h
  | cons p rest ih =>
    intro pkt h
    unfold findMatch at h
    split at h
    · rename_i hc
      injection h with h
      subst h
      exact ⟨List.mem_cons_self _ _, hc.1, hc.2.1, hc.2.2⟩
    · obtain ⟨hm, hrest⟩ := ih pkt h
      exact ⟨List.mem_cons_of_mem _ hm, hrest⟩

/-- C3 amended: inside `_send_cmd_wait`, the device-state field changes only
when some polling round contains a matching reply (first byte the command id,
second byte the command type) of length at least 3, and the value written is
that reply's third byte (the state byte); `open()`, however, separately sets
the state to `STATE_SEND` without any confirmed reply. -/
theorem send_cmd_wait_state_only_from_reply (cmd_id cmd_type device_state : Nat)
    (rounds : List (List (List Nat)))
    (hchanged : (send_cmd_wait cmd_id cmd_type device_state rounds).2 ≠ device_state) :
    (send_cmd_wait cmd_id cmd_type device_state rounds).1 = true ∧
    ∃ pkts ∈ rounds, ∃ pkt,
      findMatch cmd_id cmd_type pkts = some pkt ∧
      pkt.getD 0 0 = cmd_id ∧ pkt.getD 1 0 = cmd_type ∧ 3 ≤ pkt.length ∧
      (send_cmd_wait cmd_id cmd_type device_state rounds).2 = pkt.getD 2 0 := by
  induction rounds with
  | nil => exact absurd rfl hchanged
  | cons pkts rest ih =>
    cases hm : findMatch cmd_id cmd_type pkts with
    | some pkt =>
      have hred : send_cmd_wait cmd_id cmd_type device_state (pkts :: rest) =
          (true, if 3 ≤ pkt.length then pkt.getD 2 0 else device_state) := by
        unfold send_cmd_wait
        rw [hm]
      rw [hred] at hchanged ⊢
      by_cases hlen : 3 ≤ pkt.length
      · rw [if_pos hlen] at hchanged ⊢
        obtain ⟨-, -, h0, h1⟩ := findMatch_some cmd_id cmd_type pkts pkt hm
        exact ⟨rfl, pkts, List.mem_cons_self _ _, pkt, hm, h0, h1, hlen, rfl⟩
      · rw [if_neg hlen] at hchanged
        exact absurd rfl hchanged
    | none =>
      have hred : send_cmd_wait cmd_id cmd_type device_state (pkts :: rest) =
          send_cmd_wait cmd_id cmd_type device_state rest := by
        conv_lhs => unfold send_cmd_wait
        rw [hm]
      rw [hred] at hchanged ⊢
      obtain ⟨hok, pkts2, hmem, hrest⟩ := ih hchanged
      exact ⟨hok, pkts2, List.mem_cons_of_mem _ hmem, hrest⟩

/-- Witness for C3's amended theorem: a single round containing the reply
`[5, 83, 9]` to command id 5 of type `CMD_SEND_MODE` changes the state, and
the change is traceable to that reply's state byte. -/
theorem send_cmd_wait_state_only_from_reply_witness :
    (send_cmd_wait 5 83 0 [[[5, 83, 9]]]).2 ≠ 0 ∧
    ((send_cmd_wait 5 83 0 [[[5, 83, 9]]]).1 = true ∧
     ∃ pkts ∈ [[[5, 83, 9]]], ∃ pkt, findMatch 5 83 pkts = some pkt ∧
       pkt.getD 0 0 = 5 ∧ pkt.getD 1 0 = 83 ∧ 3 ≤ pkt.length ∧
       (send_cmd_wait 5 83 0 [[[5, 83, 9]]]).2 = pkt.getD 2 0) :=
  ⟨by decide, send_cmd_wait_state_only_from_reply 5 83 0 _ (by decide)⟩

/-- C9 counterexample: after `close()` on an open session with a non-empty
inbox and in-session device state, the inbox still holds its packets and the
device-state field still holds `STATE_SEND` — neither is cleared. -/
theorem close_counterexample_inbox_and_state_kept :
    (close { dev := true, read_active := true, packet_idx := 3, cmd_id := 4,
             device_state := STATE_SEND, received_packets := [[1, 68]] }).received_packets
        = [[1, 68]] ∧
    (close { dev := true, read_active := true, packet_idx := 3, cmd_id := 4,
             device_state := STATE_SEND, received_packets := [[1, 68]] }).device_state
        = STATE_SEND ∧
    STATE_SEND ≠ 0 := by
  decide

/-- C9 amended: `close()` on an open session stops the background reader and
releases the transport handle, but leaves the inbox of received packets and
the device-state field exactly as they were. -/
theorem close_stops_reader_keeps_inbox_and_state (st : DriverSt) (hdev : st.dev = true) :
    (close st).received_packets = st.received_packets ∧
    (close st).device_state = st.device_state ∧
    (close st).read_active = false ∧
    (close st).dev = false := by
  unfold close
  rw [if_pos hdev]
  exact ⟨rfl, rfl, rfl, rfl⟩

/-- Witness for C9's amended theorem at a concrete open session. -/
theorem close_stops_reader_keeps_inbox_and_state_witness :
    ({ dev := true, read_active := true, packet_idx := 1, cmd_id := 2,
       device_state := 9, received_packets := [[7]] } : DriverSt).dev = true ∧
    (close { dev := true, read_active := true, packet_idx := 1, cmd_id := 2,
             device_state := 9, received_packets := [[7]] }).received_packets = [[7]] :=
  ⟨rfl, (close_stops_reader_keeps_inbox_and_state _ rfl).1⟩

/-! ### Claim theorems for the fragment reassembler -/

theorem completeCheck_preserves (st : RecvSt) :
    (completeCheck st).recv_buffer = st.recv_buffer ∧
    (completeCheck st).recv_packet_idx = st.recv_packet_idx ∧
    (completeCheck st).recv_last_frag = st.recv_last_frag := by
  simp only [completeCheck]
  split
  · split
    · exact ⟨rfl, rfl, rfl⟩
    · exact ⟨rfl, rfl, rfl⟩
  · exact ⟨rfl, rfl, rfl⟩

/-- C4: reassembly ordering invariant of `_process_recv_data`.  A read that
fails header validation leaves the state untouched.  For a valid fragment:
`frag_idx = 1` reseeds the buffer with the fragment's payload (recording its
packet index and last-fragment 1); any other fragment is appended exactly
when its packet index matches the in-progress one and its fragment index is
one greater than the last accepted one; otherwise the buffer, packet index
and last-fragment index are all unchanged (the fragment is silently
dropped). -/
theorem reassembly_buffer_discipline (st : RecvSt) (data : List Nat) :
    (parseFrag data = none → process_recv_data st data = st) ∧
    (∀ hdr : FragHeader, parseFrag data = some hdr →
      (hdr.frag_idx = 1 →
          (process_recv_data st data).recv_buffer = hdr.payload ∧
          (process_recv_data st data).recv_packet_idx = hdr.packet_idx ∧
          (process_recv_data st data).recv_last_frag = 1) ∧
      (hdr.frag_idx ≠ 1 →
          ((hdr.packet_idx = st.recv_packet_idx ∧ hdr.frag_idx = st.recv_last_frag + 1) →
            (process_recv_data st data).recv_buffer = st.recv_buffer ++ hdr.payload ∧
            (process_recv_data st data).recv_last_frag = hdr.frag_idx) ∧
          (¬(hdr.packet_idx = st.recv_packet_idx ∧ hdr.frag_idx = st.recv_last_frag + 1) →
            (process_recv_data st data).recv_buffer = st.recv_buffer ∧
            (process_recv_data st data).recv_packet_idx = st.recv_packet_idx ∧
            (process_recv_data st data).recv_last_frag = st.recv_last_frag))) := by
  constructor
  · intro hp
    unfold process_recv_data
    rw [hp]
  · intro hdr hp
    have hproc : process_recv_data st data = completeCheck (fragUpdate st hdr) := by
      unfold process_recv_data
      rw [hp]
    obtain ⟨hb, hpi, hlf⟩ := completeCheck_preserves (fragUpdate st hdr)
    rw [hproc]
    constructor
    · intro h1
      refine ⟨?_, ?_, ?_⟩
      · rw [hb]; unfold fragUpdate; rw [if_pos h1]
      · rw [hpi]; unfold fragUpdate; rw [if_pos h1]
      · rw [hlf]; unfold fragUpdate; rw [if_pos h1]
    · intro hne
      constructor
      · intro hmatch
        constructor
        · rw [hb]; unfold fragUpdate; rw [if_neg hne, if_pos hmatch]
        · rw [hlf]; unfold fragUpdate; rw [if_neg hne, if_pos hmatch]
      · intro hnm
        refine ⟨?_, ?_, ?_⟩
        · rw [hb]; unfold fragUpdate; rw [if_neg hne, if_neg hnm]
        · rw [hpi]; unfold fragUpdate; rw [if_neg hne, if_neg hnm]
        · rw [hlf]; unfold fragUpdate; rw [if_neg hne, if_neg hnm]

/-- Witness for C4: the in-order fragment (packet index 4, fragment index 2
after last accepted 1) of read `[1, 5, 4, 3, 2, 9, 8]` is appended to the
in-progress buffer. -/
theorem reassembly_buffer_discipline_witness :
    parseFrag [1, 5, 4, 3, 2, 9, 8] =
      some { packet_idx := 4, frag_count := 3, frag_idx := 2, payload := [9, 8] } ∧
    (process_recv_data
        { recv_buffer := [1, 2], recv_packet_idx := 4, recv_frag_count := 3,
          recv_last_frag := 1, received_packets := [], packet_event := false }
        [1, 5, 4, 3, 2, 9, 8]).recv_buffer = [1, 2, 9, 8] := by
  constructor
  · decide
  · have h := (reassembly_buffer_discipline
        { recv_buffer := [1, 2], recv_packet_idx := 4, recv_frag_count := 3,
          recv_last_frag := 1, received_packets := [], packet_event := false }
        [1, 5, 4, 3, 2, 9, 8]).2
        { packet_idx := 4, frag_count := 3, frag_idx := 2, payload := [9, 8] }
        (by decide)
    exact ((h.2 (by decide)).1 (by decide)).1

/-- C5: completion and marker validation.  When the last received fragment
index has reached a positive fragment count, the fragment count is zeroed in
every case; the marker-stripped buffer is appended to the inbox with the
notification raised exactly when the buffer passes the marker check; a
failing buffer publishes nothing and leaves the notification alone.  Once the
fragment count is zero, the completion check is a no-op, so the same buffer
cannot complete again. -/
theorem completion_publishes_iff_markers (st : RecvSt)
    (hpos : 0 < st.recv_frag_count)
    (hdone : st.recv_last_frag = st.recv_frag_count) :
    (completeCheck st).recv_frag_count = 0 ∧
    (markersOk st.recv_buffer →
      (completeCheck st).received_packets
          = st.received_packets ++ [stripMarkers st.recv_buffer] ∧
      (completeCheck st).packet_event = true) ∧
    (¬ markersOk st.recv_buffer →
      (completeCheck st).received_packets = st.received_packets ∧
      (completeCheck st).packet_event = st.packet_event) ∧
    (∀ st2 : RecvSt, st2.recv_frag_count = 0 → completeCheck st2 = st2) := by
  have hcond : 0 < st.recv_frag_count ∧ st.recv_last_frag = st.recv_frag_count :=
    ⟨hpos, hdone⟩
  refine ⟨?_, ?_, ?_, ?_⟩
  · simp only [completeCheck]
    rw [if_pos hcond]
  · intro hm
    constructor
    · simp only [completeCheck]
      rw [if_pos hcond, if_pos hm]
    · simp only [completeCheck]
      rw [if_pos hcond, if_pos hm]
  · intro hm
    constructor
    · simp only [completeCheck]
      rw [if_pos hcond, if_neg hm]
    · simp only [completeCheck]
      rw [if_pos hcond, if_neg hm]
  · intro st2 h2
    simp only [completeCheck]
    rw [if_neg]
    rintro ⟨hpos2, -⟩
    omega

/-- Witness for C5: a completed single-fragment buffer holding exactly the
two markers publishes the empty logical packet and zeroes the fragment
count. -/
theorem completion_publishes_iff_markers_witness :
    0 < 1 ∧
    (completeCheck
      { recv_buffer := [0x53, 0x54, 0x45, 0x4E], recv_packet_idx := 2,
        recv_frag_count := 1, recv_last_frag := 1, received_packets := [],
        packet_event := false }).received_packets = [[]] ∧
    (completeCheck
      { recv_buffer := [0x53, 0x54, 0x45, 0x4E], recv_packet_idx := 2,
        recv_frag_count := 1, recv_last_frag := 1, received_packets := [],
        packet_event := false }).recv_frag_count = 0 := by
  have h := completion_publishes_iff_markers
      { recv_buffer := [0x53, 0x54, 0x45, 0x4E], recv_packet_idx := 2,
        recv_frag_count := 1, recv_last_frag := 1, received_packets := [],
        packet_event := false } (by decide) (by decide)
  exact ⟨by decide, ((h.2.1 (by decide)).1).trans (by decide), h.1⟩

/-! ### Claim theorems for outbound framing and identifier cycling -/

theorem map_congr_mem {α β : Type} (f g : α → β) :
    ∀ l : List α, (∀ a ∈ l, f a = g a) → l.map f = l.map g := by
  intro l
  induction l with
  | nil => intro _; rfl
  | cons a l ih =>
    intro h
    simp only [List.map_cons, h a (List.mem_cons_self _ _),
      ih fun b hb => h b (List.mem_cons_of_mem _ hb)]

theorem fragLoopF_eq_map (packet_idx frag_count : Nat) :
    ∀ fuel rest frag_idx, rest.length ≤ fuel →
      fragLoopF packet_idx frag_count fuel frag_idx rest
        = (List.range ((rest.length + 55) / 56)).map
            (fun i => mkReport packet_idx frag_count (frag_idx + i + 1)
              ((rest.drop (56 * i)).take 56)) := by
  intro fuel
  induction fuel with
  | zero =>
    intro rest frag_idx hle
    have hr : rest = [] := List.eq_nil_of_length_eq_zero (by omega)
    subst hr
    rfl
  | succ n ih =>
    intro rest frag_idx hle
    match rest with
    | [] => rfl
    | b :: rest2 =>
      have hdl : ((b :: rest2).drop MAX_FRAG_SIZE).length = rest2.length + 1 - 56 := by
        simp [MAX_FRAG_SIZE]
      have hceil : ((b :: rest2).length + 55) / 56
          = (((b :: rest2).drop MAX_FRAG_SIZE).length + 55) / 56 + 1 := by
        rw [hdl]
        simp only [List.length_cons]
        omega
      simp only [List.length_cons] at hle
      unfold fragLoopF
      rw [ih ((b :: rest2).drop MAX_FRAG_SIZE) (frag_idx + 1) (by rw [hdl]; omega)]
      rw [hceil, List.range_succ_eq_map, List.map_cons, List.map_map]
      congr 1
      apply map_congr_mem
      intro a _
      have hdrop : ((b :: rest2).drop MAX_FRAG_SIZE).drop (56 * a)
          = (b :: rest2).drop (56 * (a + 1)) := by
        show ((b :: rest2).drop 56).drop (56 * a) = (b :: rest2).drop (56 * (a + 1))
        rw [List.drop_drop]
        congr 1
        omega
      have harith : frag_idx + 1 + a + 1 = frag_idx + (a + 1) + 1 := by omega
      simp only [Function.comp, Nat.succ_eq_add_one]
      rw [hdrop, harith]

theorem send_report_frags_eq (data : List Nat) (packet_idx : Nat) :
    send_report_frags data packet_idx
      = (List.range ((data.length + 55) / 56)).map
          (fun i => mkReport packet_idx ((data.length + 55) / 56) (i + 1)
            ((data.drop (56 * i)).take 56)) := by
  have hfc : (data.length + MAX_FRAG_SIZE - 1) / MAX_FRAG_SIZE = (data.length + 55) / 56 := by
    simp only [MAX_FRAG_SIZE]
    omega
  show fragLoopF packet_idx ((data.length + MAX_FRAG_SIZE - 1) / MAX_FRAG_SIZE)
      data.length 0 data = _
  rw [hfc, fragLoopF_eq_map packet_idx ((data.length + 55) / 56) data.length data 0 le_rfl]
  apply map_congr_mem
  intro a _
  have h0 : 0 + a + 1 = a + 1 := by omega
  rw [h0]

theorem mkReport_length (p f idx : Nat) (chunk : List Nat) (h : chunk.length ≤ 56) :
    (mkReport p f idx chunk).length = 61 := by
  simp only [mkReport, pad61, List.length_append, List.length_replicate, List.length_cons,
    List.length_nil]
  omega

theorem mkReport_getD_packet_idx (p f idx : Nat) (chunk : List Nat) :
    (mkReport p f idx chunk).getD 2 0 = p := rfl

theorem mkReport_getD_size (p f idx : Nat) (chunk : List Nat) :
    (mkReport p f idx chunk).getD 1 0 = chunk.length + 3 := rfl

/-- C8: outbound framing format and identifier cycling.  `_send_report`
splits a logical packet into `⌈length / 56⌉` reports; report `i` (0-based) is
exactly the 61-byte layout
`[0x02][chunk length + 3][packet_idx][frag_count][i + 1][chunk][zero padding]`
with chunk `data[56*i : 56*i + 56]` of at most 56 bytes, so every report of
one packet carries the same packet index and a 1-based fragment index.
`_get_packet_idx` cycles 1..15 and `_get_cmd_id` cycles 1..127; neither ever
returns zero. -/
theorem framing_layout_and_id_cycling :
    (∀ (data : List Nat) (packet_idx : Nat),
        (send_report_frags data packet_idx).length = (data.length + 55) / 56) ∧
    (∀ (data : List Nat) (packet_idx i : Nat),
        i < (send_report_frags data packet_idx).length →
        (send_report_frags data packet_idx).getD i []
            = mkReport packet_idx ((data.length + 55) / 56) (i + 1)
                ((data.drop (56 * i)).take 56) ∧
        ((data.drop (56 * i)).take 56).length ≤ 56 ∧
        ((send_report_frags data packet_idx).getD i []).length = 61 ∧
        ((send_report_frags data packet_idx).getD i []).getD 2 0 = packet_idx ∧
        ((send_report_frags data packet_idx).getD i []).getD 1 0
            = ((data.drop (56 * i)).take 56).length + 3) ∧
    (∀ n, get_packet_idx n ≠ 0 ∧ get_packet_idx n ≤ 15 ∧
          get_cmd_id n ≠ 0 ∧ get_cmd_id n ≤ 127) ∧
    (∀ n, 1 ≤ n → n ≤ 15 → get_packet_idx n = if n = 15 then 1 else n + 1) ∧
    (∀ n, 1 ≤ n → n ≤ 127 → get_cmd_id n = if n = 127 then 1 else n + 1) := by
  have hlen : ∀ (data : List Nat) (packet_idx : Nat),
      (send_report_frags data packet_idx).length = (data.length + 55) / 56 := by
    intro data packet_idx
    rw [send_report_frags_eq]
    simp
  refine ⟨hlen, ?_, ?_, ?_, ?_⟩
  · intro data packet_idx i hi
    have hico : i < (data.length + 55) / 56 := by rw [← hlen data packet_idx]; exact hi
    have hget : (send_report_frags data packet_idx).getD i []
        = mkReport packet_idx ((data.length + 55) / 56) (i + 1)
            ((data.drop (56 * i)).take 56) := by
      rw [send_report_frags_eq]
      rw [List.getD_eq_getElem _ _ (by simpa using hico)]
      simp [List.getElem_map, List.getElem_range]
    have hchunk : ((data.drop (56 * i)).take 56).length ≤ 56 := by
      simp
    refine ⟨hget, hchunk, ?_, ?_, ?_⟩
    · rw [hget]
      exact mkReport_length _ _ _ _ hchunk
    · rw [hget]
      exact mkReport_getD_packet_idx _ _ _ _
    · rw [hget]
      exact mkReport_getD_size _ _ _ _
  · intro n
    unfold get_packet_idx get_cmd_id
    omega
  · intro n h1 h15
    unfold get_packet_idx
    split <;> omega
  · intro n h1 h127
    unfold get_cmd_id
    split <;> omega

/-- Witness for C8: a 57-byte packet produces 2 fragments, the packet-index
counter wraps 15 to 1, and the command-id counter wraps 127 to 1. -/
theorem framing_layout_and_id_cycling_witness :
    (1 : Nat) ≤ 15 ∧ get_packet_idx 15 = 1 ∧ get_cmd_id 127 = 1 ∧
    (send_report_frags (List.replicate 57 9) 4).length = 2 := by
  refine ⟨by decide, ?_, ?_, ?_⟩
  · exact (framing_layout_and_id_cycling.2.2.2.1 15 (by decide) (by decide)).trans (by decide)
  · exact (framing_layout_and_id_cycling.2.2.2.2 127 (by decide) (by decide)).trans (by decide)
  · exact (framing_layout_and_id_cycling.1 (List.replicate 57 9) 4).trans (by decide)

end Tiqiaa
